import Mathlib

/-!
Verification of the wsp reverse-HTTP-proxy-over-WebSocket core.

The Go sources are shallowly embedded: pure fragments become Lean functions,
the per-connection and per-pool state machines become explicit state passing,
Go byte strings are modeled as Lean strings, and the external regex engine is
modeled by abstract boolean predicates.
-/

namespace Wsp

/-- Kind of a WebSocket data frame (gorilla/websocket TextMessage / BinaryMessage). -/
inductive FrameKind where
  | text
  | binary
deriving DecidableEq

/-- common.HTTPRequest : the serializable version of net/http.Request
(fields Method, URL, Header, ContentLength). The Go header map is modeled as an
association list; lookups return the first value, as http.Header.Get does. -/
structure HTTPRequest where
  Method : String
  URL : String
  Header : List (String × String)
  ContentLength : Int
deriving DecidableEq

/-- common.HTTPResponse : the serializable version of net/http.Response
(fields StatusCode, Header, ContentLength). -/
structure HTTPResponse where
  StatusCode : Int
  Header : List (String × String)
  ContentLength : Int
deriving DecidableEq

/-- The payload carried by one WebSocket frame: a JSON-encoded wire request, a
JSON-encoded wire response, or raw body bytes (modeled as a string). -/
inductive Payload where
  | jsonRequest (r : HTTPRequest)
  | jsonResponse (r : HTTPResponse)
  | bytes (b : String)
deriving DecidableEq

/-- One WebSocket data frame. -/
structure Frame where
  kind : FrameKind
  payload : Payload
deriving DecidableEq

/-- json.Unmarshal of a frame payload into common.HTTPRequest:
succeeds exactly when the payload is an encoded wire request. -/
def decodeRequest : Payload → Option HTTPRequest
  | Payload.jsonRequest r => some r
  | _ => none

/-- json.Unmarshal of a frame payload into common.HTTPResponse:
succeeds exactly when the payload is an encoded wire response. -/
def decodeResponse : Payload → Option HTTPResponse
  | Payload.jsonResponse r => some r
  | _ => none

/-- Go http.Header.Get : the first value associated with the key, or the empty
string when the header is absent. -/
def headerGet (h : List (String × String)) (name : String) : String :=
  match h.find? (fun p => p.1 == name) with
  | some p => p.2
  | none => ""

/-- common.Rule : a compiled access rule. The compiled regular expressions of the
Go code (an external library) are modeled as abstract string predicates; a `none`
field models a rule whose Method / URL pattern was empty and never compiled. -/
structure Rule where
  methodRegex : Option (String → Bool)
  urlRegex : Option (String → Bool)
  headersRegex : List (String × (String → Bool))

/-- common.Rule.Match : the rule matches iff its method regex (if present) matches
the method, its URL regex (if present) matches the URL string, and every header
regex matches that header's value (empty string when absent). -/
def Rule.Match (rule : Rule) (req : HTTPRequest) : Bool :=
  (match rule.methodRegex with
   | some rx => rx req.Method
   | none => true) &&
  (match rule.urlRegex with
   | some rx => rx req.URL
   | none => true) &&
  rule.headersRegex.all (fun p => p.2 (headerGet req.Header p.1))

/-- common.RequestValidator : an ordered blacklist and whitelist of rules. -/
structure RequestValidator where
  Blacklist : List Rule
  Whitelist : List Rule

/-- common.RequestValidator.Validate : the blacklist is applied first (any match
rejects), then the whitelist (if non-empty, at least one rule must match). -/
def RequestValidator.Validate (v : RequestValidator) (req : HTTPRequest) :
    Except String Unit :=
  if 0 < v.Blacklist.length ∧ v.Blacklist.any (fun rule => rule.Match req) = true then
    Except.error "Destination is forbidden"
  else if 0 < v.Whitelist.length then
    if v.Whitelist.any (fun rule => rule.Match req) = true then
      Except.ok ()
    else
      Except.error "Destination is not allowed"
  else
    Except.ok ()

/-- Status of a public-side (server) Connection: the iota constants
IDLE = 0, BUSY = 1, CLOSED = 2 of server/connection.go. -/
inductive SStatus where
  | IDLE
  | BUSY
  | CLOSED
deriving DecidableEq

/-- The lock-protected state of a public-side server.Connection: its status, the
idleSince timestamp (an abstract instant), and the two pieces of teardown state
touched by close (the nextResponse channel and the underlying websocket). -/
structure SConn where
  status : SStatus
  idleSince : Int
  nextResponseClosed : Bool
  wsClosed : Bool
deriving DecidableEq

/-- server.Connection.Take : returns false if the status is CLOSED or BUSY,
otherwise sets the status to BUSY and returns true. The mutex serializes the
call, which the sequential state passing models. -/
def SConn.Take (c : SConn) : Bool × SConn :=
  if c.status = SStatus.CLOSED then (false, c)
  else if c.status = SStatus.BUSY then (false, c)
  else (true, { c with status := SStatus.BUSY })

/-- server.Connection.Release : a no-op on a CLOSED connection, otherwise sets
idleSince to the current time, sets the status to IDLE and offers the connection
back to the pool (the boolean records whether the offer was made). -/
def SConn.Release (c : SConn) (now : Int) : SConn × Bool :=
  if c.status = SStatus.CLOSED then (c, false)
  else ({ c with idleSince := now, status := SStatus.IDLE }, true)

/-- server.Connection.close : a no-op on a CLOSED connection, otherwise closes
the nextResponse channel, closes the websocket and sets the status to CLOSED. -/
def SConn.close (c : SConn) : SConn :=
  if c.status = SStatus.CLOSED then c
  else { c with
         status := SStatus.CLOSED
         nextResponseClosed := true
         wsClosed := true }

/-- n successive Take calls on a connection (as serialized by the connection
mutex); returns how many of them succeeded and the final state. -/
def SConn.takeN (c : SConn) : Nat → Nat × SConn
  | 0 => (0, c)
  | n + 1 =>
    let r := c.Take
    let rest := r.2.takeN n
    ((if r.1 then 1 else 0) + rest.1, rest.2)

/-- A validator call rejects when it returns an error. -/
def RequestValidator.rejects (v : RequestValidator) (req : HTTPRequest) : Prop :=
  ∃ msg, v.Validate req = Except.error msg

/-- The state owned by the server.ConnectionStack.run coordinator: the growable
`connections` sequence and the separately kept `top` element (`nil` when the
stack is empty). Elements are kept abstract. -/
structure ConnectionStack (α : Type) where
  connections : List α
  top : Option α
deriving DecidableEq

/-- newConnectionStack starts with no stored connections and no top. -/
def ConnectionStack.empty {α : Type} : ConnectionStack α :=
  { connections := [], top := none }

/-- The `last := <-stack.in` arms of ConnectionStack.run, i.e. an offer that is
stored while no acquirer is receiving: when there is no top the offered
connection becomes the top, otherwise the current top is appended to the
`connections` sequence and the offered connection becomes the new top. -/
def ConnectionStack.offer {α : Type} (s : ConnectionStack α) (c : α) :
    ConnectionStack α :=
  match s.top with
  | none => { s with top := some c }
  | some t => { connections := s.connections ++ [t], top := some c }

/-- The `stack.out <- top` arm of ConnectionStack.run: an acquirer receives the
current top; if the stored sequence is non-empty its last element is popped into
top, otherwise top becomes `nil`. Returns `none` when the stack is empty (the
coordinator would block waiting for an offer). -/
def ConnectionStack.take? {α : Type} (s : ConnectionStack α) :
    Option (α × ConnectionStack α) :=
  match s.top with
  | none => none
  | some t =>
    match s.connections.getLast? with
    | some last => some (t, { connections := s.connections.dropLast, top := some last })
    | none => some (t, { connections := s.connections, top := none })

/-- The run-loop invariant: `top` is `nil` only when the stored sequence is
empty (run only clears top after removing the last stored connection). -/
def ConnectionStack.WF {α : Type} (s : ConnectionStack α) : Prop :=
  s.top = none → s.connections = []

/-- The abstract LIFO contents of the stack, most recent first. -/
def ConnectionStack.toList {α : Type} (s : ConnectionStack α) : List α :=
  match s.top with
  | none => []
  | some t => t :: s.connections.reverse

/-- Store a sequence of offers, oldest first. -/
def ConnectionStack.offerAll {α : Type} (s : ConnectionStack α) (cs : List α) :
    ConnectionStack α :=
  cs.foldl ConnectionStack.offer s

/-- Receive up to n connections from the stack, in order. -/
def ConnectionStack.takeAll {α : Type} : Nat → ConnectionStack α → List α
  | 0, _ => []
  | n + 1, s =>
    match s.take? with
    | none => []
    | some (c, s') => c :: takeAll n s'

/-- Status of an internal-side (client) Connection: the iota constants
CONNECTING = 0, IDLE = 1, RUNNING = 2, CLOSED = 3 of client/connection.go. -/
inductive CStatus where
  | CONNECTING
  | IDLE
  | RUNNING
  | CLOSED
deriving DecidableEq

/-- client.PoolSize : the number of connections per status plus the total,
as computed by client.Pool.size over the member sequence. -/
structure CPoolSize where
  connecting : Nat
  idle : Nat
  running : Nat
  closed : Nat
  total : Nat
deriving DecidableEq

/-- Count the connections with one specific status. -/
def countStatus (conns : List CStatus) (s : CStatus) : Nat :=
  (conns.filter (fun c => c == s)).length

/-- client.Pool.size : total is the length of the member sequence, the
per-status counters come from each connection's status. -/
def poolSizeOf (conns : List CStatus) : CPoolSize :=
  { connecting := countStatus conns CStatus.CONNECTING
    idle := countStatus conns CStatus.IDLE
    running := countStatus conns CStatus.RUNNING
    closed := countStatus conns CStatus.CLOSED
    total := conns.length }

/-- client.Pool.clean : remove CLOSED connections from the member sequence. -/
def cleanPool (conns : List CStatus) : List CStatus :=
  conns.filter (fun c => c != CStatus.CLOSED)

/-- The number of member connections whose status is not CLOSED. -/
def countNonClosed (conns : List CStatus) : Nat :=
  (cleanPool conns).length

/-- client.Pool.connector : one wake of the internal-side replenisher, under the
pool lock. It cleans CLOSED connections, computes the pool size, derives
missing = PoolIdleSize − idle (overridden to 1 on an empty pool, clamped so the
total never exceeds PoolMaxSize), subtracts the in-flight connecting count and
appends that many fresh connections in CONNECTING state. -/
def connector (poolIdleSize poolMaxSize : Int) (conns : List CStatus) :
    List CStatus :=
  let cleaned := cleanPool conns
  let ps := poolSizeOf cleaned
  let missing0 : Int := poolIdleSize - (ps.idle : Int)
  let missing1 : Int := if ps.idle + ps.running = 0 then 1 else missing0
  let missing2 : Int :=
    if (ps.total : Int) + missing1 > poolMaxSize then poolMaxSize - (ps.total : Int)
    else missing1
  let toCreate : Int := missing2 - (ps.connecting : Int)
  cleaned ++ List.replicate toCreate.toNat CStatus.CONNECTING

/-- The replenisher arithmetic exactly as claim C6 words it: let
missing = PoolIdleSize − idle; override missing = 1 when idle + running = 0;
clamp missing to PoolMaxSize − total when total + missing would exceed
PoolMaxSize; then toCreate = missing − connecting. -/
def claimToCreate (poolIdleSize poolMaxSize : Int)
    (idle running connecting total : Nat) : Int :=
  let missing : Int := poolIdleSize - (idle : Int)
  let missing : Int := if idle + running = 0 then 1 else missing
  let missing : Int :=
    if (total : Int) + missing > poolMaxSize then poolMaxSize - (total : Int)
    else missing
  missing - (connecting : Int)

/-- One public-side connection as seen by the server Pool.clean GC: the status
and idleSince timestamp read atomically through getStatus. -/
structure GConn where
  status : SStatus
  idleSince : Int
deriving DecidableEq

/-- conn.close as observed by the GC: the connection's status becomes CLOSED. -/
def GConn.close (c : GConn) : GConn := { c with status := SStatus.CLOSED }

/-- Number of IDLE connections in a list. -/
def idleCount (conns : List GConn) : Nat :=
  (conns.filter (fun c => c.status == SStatus.IDLE)).length

/-- The loop body of server Pool.clean (the idle-timeout GC), with the running
`idle` counter made explicit. Connections whose status is not IDLE are skipped;
an IDLE connection is kept while the incremented counter is still ≤ PoolSize;
past that it is closed when time.Since(idleSince) > IdleTimeout (time.Since is
modeled as now − idleSince), else kept. -/
def cleanLoop (poolSize idleTimeout now : Int) :
    List GConn → Nat → List GConn
  | [], _ => []
  | c :: rest, idle =>
    if c.status ≠ SStatus.IDLE then
      c :: cleanLoop poolSize idleTimeout now rest idle
    else if ((idle : Int) + 1) ≤ poolSize then
      c :: cleanLoop poolSize idleTimeout now rest (idle + 1)
    else if now - c.idleSince > idleTimeout then
      c.close :: cleanLoop poolSize idleTimeout now rest (idle + 1)
    else
      c :: cleanLoop poolSize idleTimeout now rest (idle + 1)

/-- server Pool.clean : one full pass of the GC over the member set, starting
with an idle counter of zero. -/
def cleanGC (poolSize idleTimeout now : Int) (conns : List GConn) : List GConn :=
  cleanLoop poolSize idleTimeout now conns 0

/-- What claim C7 says happens to one connection whose idle rank (number of
IDLE connections encountered up to and including it) is r: it is closed iff it
is IDLE, beyond the first PoolSize IDLE connections, and idle for longer than
IdleTimeout; otherwise it is untouched. -/
def gcSpecTransform (poolSize idleTimeout now : Int) (c : GConn) (r : Nat) :
    GConn :=
  if c.status = SStatus.IDLE ∧ (r : Int) > poolSize ∧ now - c.idleSince > idleTimeout
  then c.close else c

/-- A read or a write of one WebSocket frame; traces of these events record
the order of operations on a tunnel. -/
inductive Event where
  | readFrame (f : Frame)
  | writeFrame (f : Frame)
deriving DecidableEq

/-- Outcome of one iteration of the internal-side serve loop: either the loop
breaks (the deferred close tears the connection down), or it continues with
the remaining incoming frames. -/
inductive StepResult where
  | terminated (events : List Event)
  | continued (events : List Event) (rest : List Frame)
deriving DecidableEq

/-- The events of either outcome. -/
def StepResult.events : StepResult → List Event
  | StepResult.terminated es => es
  | StepResult.continued es _ => es

/-- The frames written in a trace, in order. -/
def writtenFrames (events : List Event) : List Frame :=
  events.filterMap (fun e =>
    match e with
    | Event.writeFrame f => some f
    | Event.readFrame _ => none)

/-- client.Connection.error : crafts the synthesized wire response for an error
message - NewHTTPResponse (empty header), StatusCode 527, ContentLength set to
len(msg) - and writes it as a TEXT frame followed by a BINARY frame carrying
exactly the message bytes. -/
def connError (msg : String) : List Frame :=
  [ { kind := FrameKind.text
      payload := Payload.jsonResponse
        { StatusCode := 527, Header := [], ContentLength := (msg.length : Int) } },
    { kind := FrameKind.binary, payload := Payload.bytes msg } ]

/-- One iteration of client.Connection.serve, the loop body from setStatus(IDLE)
on. `incoming` models the successive reads on the websocket (an exhausted list
is a failed read, on which the loop breaks); `parseURL` models url.Parse
success in ToStdLibHTTPRequest; `httpExec` models httpClient.Do on the
deserialized request and the body-frame payload, returning the response and its
body on success. Writes always succeed in the model (a failed write also breaks
the loop in Go), and the error texts interpolated from the json/url libraries
are not modeled - only the code's format strings appear. -/
def serveStep (validator : RequestValidator) (parseURL : String → Bool)
    (httpExec : HTTPRequest → Payload → Except String (HTTPResponse × String))
    (incoming : List Frame) : StepResult :=
  match incoming with
  | [] => StepResult.terminated []
  | f1 :: rest1 =>
    match decodeRequest f1.payload with
    | none =>
      StepResult.terminated
        (Event.readFrame f1 ::
          (connError "Unable to deserialize json http request : \n").map
            Event.writeFrame)
    | some httpRequest =>
      if parseURL httpRequest.URL then
        match validator.Validate httpRequest with
        | Except.error emsg =>
          match rest1 with
          | [] => StepResult.terminated [Event.readFrame f1]
          | f2 :: rest2 =>
            if f2.kind = FrameKind.binary then
              StepResult.continued
                (Event.readFrame f1 :: Event.readFrame f2 ::
                  (connError emsg).map Event.writeFrame) rest2
            else
              StepResult.terminated
                (Event.readFrame f1 :: Event.readFrame f2 ::
                  (connError "Invalid body message type").map Event.writeFrame)
        | Except.ok _ =>
          match rest1 with
          | [] => StepResult.terminated [Event.readFrame f1]
          | f2 :: rest2 =>
            match httpExec httpRequest f2.payload with
            | Except.error e =>
              StepResult.continued
                (Event.readFrame f1 :: Event.readFrame f2 ::
                  (connError ("Unable to execute request : " ++ e ++ "\n")).map
                    Event.writeFrame) rest2
            | Except.ok (resp, respBody) =>
              StepResult.continued
                [Event.readFrame f1, Event.readFrame f2,
                 Event.writeFrame
                   { kind := FrameKind.text, payload := Payload.jsonResponse resp },
                 Event.writeFrame
                   { kind := FrameKind.binary, payload := Payload.bytes respBody }]
                rest2
      else
        StepResult.terminated
          (Event.readFrame f1 ::
            (connError "Unable to deserialize http request : \n").map
              Event.writeFrame)

/-- Result of server.Connection.proxyRequest : the frame events in order and,
when the exchange completes, the deserialized wire response with the payload of
the response-body frame. `none` means proxyRequest returned an error, after
which the request handler throws the connection away (connection.close). -/
structure ProxyResult where
  events : List Event
  response : Option (HTTPResponse × Payload)
deriving DecidableEq

/-- server.Connection.proxyRequest : writes the serialized wire request as a
TEXT frame, pipes the request body as a BINARY frame, then reads two frames
handed over by the read() goroutine - the wire response (JSON-decoded, a decode
failure aborts the exchange) and the response body, which is piped to the HTTP
client. read() does not inspect the frame type. `incoming` models the frames
sent back by the internal peer; an exhausted list is a failed read. -/
def proxyRequest (req : HTTPRequest) (body : String) (incoming : List Frame) :
    ProxyResult :=
  let w1 : Frame := { kind := FrameKind.text, payload := Payload.jsonRequest req }
  let w2 : Frame := { kind := FrameKind.binary, payload := Payload.bytes body }
  match incoming with
  | [] =>
    { events := [Event.writeFrame w1, Event.writeFrame w2], response := none }
  | f3 :: rest =>
    match decodeResponse f3.payload with
    | none =>
      { events := [Event.writeFrame w1, Event.writeFrame w2, Event.readFrame f3]
        response := none }
    | some resp =>
      match rest with
      | [] =>
        { events := [Event.writeFrame w1, Event.writeFrame w2, Event.readFrame f3]
          response := none }
      | f4 :: _ =>
        { events := [Event.writeFrame w1, Event.writeFrame w2, Event.readFrame f3,
                     Event.readFrame f4]
          response := some (resp, f4.payload) }

/-- The guard of server.Connection.read : whether a frame arriving while the
connection has the given status breaks the read loop (whose deferred Close then
terminates the tunnel). Frames are expected only while BUSY. -/
def readLoopFrameCloses (status : SStatus) : Bool :=
  status != SStatus.BUSY

/-- One full proxied exchange: the public side writes the two request frames of
proxyRequest, the internal side runs one serve iteration on exactly those
frames, and the public side completes proxyRequest on the frames the internal
side wrote back. -/
def exchange (validator : RequestValidator) (parseURL : String → Bool)
    (httpExec : HTTPRequest → Payload → Except String (HTTPResponse × String))
    (req : HTTPRequest) (body : String) : StepResult × ProxyResult :=
  let pubFrames : List Frame :=
    [ { kind := FrameKind.text, payload := Payload.jsonRequest req },
      { kind := FrameKind.binary, payload := Payload.bytes body } ]
  let clientRes := serveStep validator parseURL httpExec pubFrames
  let serverRes := proxyRequest req body (writtenFrames clientRes.events)
  (clientRes, serverRes)

/-- One scheduler step observable by the internal-side pool: either a wake of
the replenisher (the only writer of the member sequence), or a status change of
one member connection performed by that connection's own goroutine. A CLOSED
connection never changes status again (client.Connection.close is guarded by
isClosed and every other transition is done by the still-running serve loop),
so the source of a status change is not CLOSED. -/
inductive PoolStep (poolIdleSize poolMaxSize : Int) :
    List CStatus → List CStatus → Prop
  | connectorWake (conns : List CStatus) :
      PoolStep poolIdleSize poolMaxSize conns (connector poolIdleSize poolMaxSize conns)
  | statusChange (conns : List CStatus) (i : Nat) (s : CStatus)
      (hsrc : conns.get? i ≠ some CStatus.CLOSED) :
      PoolStep poolIdleSize poolMaxSize conns (conns.set i s)

/-- Claim C2: Validate rejects iff some blacklist rule matches, or the whitelist
is non-empty and no whitelist rule matches; a rule matches iff its optional
method regex matches the method, its optional URL regex matches the URL, and
every header regex matches that header's value (the empty string when the header
is absent); an empty blacklist denies nothing and an empty whitelist allows
everything. -/
theorem validator_validate_spec (v : RequestValidator) (req : HTTPRequest) :
    (v.rejects req ↔
      ((∃ rule ∈ v.Blacklist, rule.Match req = true) ∨
       (v.Whitelist ≠ [] ∧ ∀ rule ∈ v.Whitelist, rule.Match req = false))) ∧
    (∀ rule : Rule,
      rule.Match req = true ↔
        ((∀ rx, rule.methodRegex = some rx → rx req.Method = true) ∧
         (∀ rx, rule.urlRegex = some rx → rx req.URL = true) ∧
         (∀ p ∈ rule.headersRegex, p.2 (headerGet req.Header p.1) = true))) ∧
    (∀ nm, (∀ p ∈ req.Header, p.1 ≠ nm) → headerGet req.Header nm = "") ∧
    (v.Blacklist = [] →
      (v.rejects req ↔ (v.Whitelist ≠ [] ∧ ∀ rule ∈ v.Whitelist, rule.Match req = false))) ∧
    (v.Whitelist = [] →
      (v.rejects req ↔ ∃ rule ∈ v.Blacklist, rule.Match req = true)) := by
  have hmain : v.rejects req ↔
      ((∃ rule ∈ v.Blacklist, rule.Match req = true) ∨
       (v.Whitelist ≠ [] ∧ ∀ rule ∈ v.Whitelist, rule.Match req = false)) := by
    unfold RequestValidator.rejects RequestValidator.Validate
    by_cases hb : 0 < v.Blacklist.length ∧ v.Blacklist.any (fun rule => rule.Match req) = true
    · simp only [hb, if_true]
      constructor
      · intro _
        left
        rcases List.any_eq_true.mp hb.2 with ⟨rule, hmem, hmatch⟩
        exact ⟨rule, hmem, hmatch⟩
      · intro _; exact ⟨_, rfl⟩
    · simp only [hb, if_false]
      have hbl : ¬ ∃ rule ∈ v.Blacklist, rule.Match req = true := by
        intro ⟨rule, hmem, hmatch⟩
        rcases Nat.eq_zero_or_pos v.Blacklist.length with hz | hp
        · exact absurd (List.length_eq_zero.mp hz ▸ hmem) (List.not_mem_nil rule)
        · exact hb ⟨hp, List.any_eq_true.mpr ⟨rule, hmem, hmatch⟩⟩
      by_cases hw : 0 < v.Whitelist.length
      · simp only [hw, if_true]
        by_cases hwm : v.Whitelist.any (fun rule => rule.Match req) = true
        · simp only [hwm, if_true]
          constructor
          · intro ⟨msg, hmsg⟩; cases hmsg
          · intro h
            rcases h with h | ⟨_, hall⟩
            · exact absurd h hbl
            · rcases List.any_eq_true.mp hwm with ⟨rule, hmem, hmatch⟩
              rw [hall rule hmem] at hmatch
              cases hmatch
        · simp only [hwm, if_false]
          constructor
          · intro _
            right
            refine ⟨List.length_pos.mp hw, fun rule hmem => ?_⟩
            by_cases hm : rule.Match req = true
            · exact absurd (List.any_eq_true.mpr ⟨rule, hmem, hm⟩) hwm
            · exact Bool.not_eq_true _ ▸ hm
          · intro _; exact ⟨_, rfl⟩
      · simp only [hw, if_false]
        constructor
        · intro ⟨msg, hmsg⟩; cases hmsg
        · intro h
          rcases h with h | ⟨hne, _⟩
          · exact absurd h hbl
          · exact absurd (List.length_eq_zero.mp (Nat.eq_zero_of_not_pos hw)) hne
  refine ⟨hmain, ?_, ?_, ?_, ?_⟩
  · intro rule
    unfold Rule.Match
    simp only [Bool.and_eq_true, List.all_eq_true]
    constructor
    · intro ⟨⟨h1, h2⟩, h3⟩
      refine ⟨?_, ?_, ?_⟩
      · intro rx hrx; rw [hrx] at h1; exact h1
      · intro rx hrx; rw [hrx] at h2; exact h2
      · exact fun p hp => h3 p hp
    · intro ⟨h1, h2, h3⟩
      refine ⟨⟨?_, ?_⟩, fun p hp => h3 p hp⟩
      · cases hrx : rule.methodRegex with
        | none => rfl
        | some rx => exact h1 rx hrx
      · cases hrx : rule.urlRegex with
        | none => rfl
        | some rx => exact h2 rx hrx
  · intro nm habsent
    unfold headerGet
    cases hfind : req.Header.find? (fun p => p.1 == nm) with
    | none => rfl
    | some p =>
      have hmem := List.mem_of_find?_eq_some hfind
      have hpred := List.find?_some hfind
      simp only [beq_iff_eq] at hpred
      exact absurd hpred (habsent p hmem)
  · intro hbl
    rw [hmain, hbl]
    simp
  · intro hwl
    rw [hmain, hwl]
    simp

/-- Helper: Take on a connection that is not IDLE fails and leaves the state
unchanged. -/
theorem SConn.Take_of_not_idle (c : SConn) (h : c.status ≠ SStatus.IDLE) :
    c.Take = (false, c) := by
  unfold SConn.Take
  cases hs : c.status with
  | IDLE => exact absurd hs h
  | BUSY => simp [hs]
  | CLOSED => simp [hs]

/-- Helper: any number of successive Take calls on a non-IDLE connection all
fail and leave the state unchanged. -/
theorem SConn.takeN_of_not_idle (c : SConn) (h : c.status ≠ SStatus.IDLE) :
    ∀ n, c.takeN n = (0, c) := by
  intro n
  induction n with
  | zero => rfl
  | succ n ih =>
    unfold SConn.takeN
    rw [SConn.Take_of_not_idle c h]
    simp only
    rw [ih]
    simp

/-- Claim C3: Take returns true iff the connection's status is IDLE at the call,
in which case the status becomes BUSY; Take returns false whenever the status is
BUSY or CLOSED; and of any sequence of n ≥ 1 serialized Take calls starting from
IDLE, exactly one succeeds (one IDLE→BUSY edge, one winner). -/
theorem sconn_take_spec (c : SConn) :
    ((c.Take).1 = true ↔ c.status = SStatus.IDLE) ∧
    (c.status = SStatus.IDLE →
      c.Take = (true, { c with status := SStatus.BUSY })) ∧
    (c.status = SStatus.BUSY ∨ c.status = SStatus.CLOSED → c.Take = (false, c)) ∧
    (∀ n, 1 ≤ n → c.status = SStatus.IDLE → (c.takeN n).1 = 1) := by
  refine ⟨?_, ?_, ?_, ?_⟩
  · unfold SConn.Take
    cases hs : c.status with
    | IDLE => simp [hs]
    | BUSY => simp [hs]
    | CLOSED => simp [hs]
  · intro hs
    unfold SConn.Take
    simp [hs]
  · intro hs
    rcases hs with hs | hs <;> (unfold SConn.Take; simp [hs])
  · intro n hn hs
    cases n with
    | zero => cases hn
    | succ m =>
      unfold SConn.takeN
      have htake : c.Take = (true, { c with status := SStatus.BUSY }) := by
        unfold SConn.Take; simp [hs]
      rw [htake]
      simp only
      rw [SConn.takeN_of_not_idle _ (by simp) m]
      simp

/-- Witness for sconn_take_spec at a concrete IDLE connection. -/
theorem sconn_take_spec_witness :
    ((⟨SStatus.IDLE, 0, false, false⟩ : SConn).Take).1 = true ∧
    ((⟨SStatus.IDLE, 0, false, false⟩ : SConn).takeN 3).1 = 1 := by
  refine ⟨?_, ?_⟩
  · exact (sconn_take_spec ⟨SStatus.IDLE, 0, false, false⟩).1.mpr rfl
  · exact (sconn_take_spec ⟨SStatus.IDLE, 0, false, false⟩).2.2.2 3 (by decide) rfl

/-- Claim C9: CLOSED is absorbing for a public-side connection: Take returns
false without modifying the state, Release returns without modifying status or
idleSince and without offering the connection back to the pool, close returns
immediately without re-closing the nextResponse channel or the websocket, and
no operation leaves CLOSED. -/
theorem sconn_closed_terminal (c : SConn) (h : c.status = SStatus.CLOSED)
    (now : Int) :
    c.Take = (false, c) ∧
    c.Release now = (c, false) ∧
    c.close = c ∧
    ((c.Take).2.status = SStatus.CLOSED ∧
     ((c.Release now).1).status = SStatus.CLOSED ∧
     (c.close).status = SStatus.CLOSED) := by
  refine ⟨?_, ?_, ?_, ?_⟩
  · unfold SConn.Take; simp [h]
  · unfold SConn.Release; simp [h]
  · unfold SConn.close; simp [h]
  · refine ⟨?_, ?_, ?_⟩
    · unfold SConn.Take; simp [h]
    · unfold SConn.Release; simp [h]
    · unfold SConn.close; simp [h]

/-- Witness for sconn_closed_terminal at a concrete CLOSED connection. -/
theorem sconn_closed_terminal_witness :
    (⟨SStatus.CLOSED, 7, true, true⟩ : SConn).Take
      = (false, ⟨SStatus.CLOSED, 7, true, true⟩) ∧
    (⟨SStatus.CLOSED, 7, true, true⟩ : SConn).Release 42
      = (⟨SStatus.CLOSED, 7, true, true⟩, false) ∧
    (⟨SStatus.CLOSED, 7, true, true⟩ : SConn).close
      = ⟨SStatus.CLOSED, 7, true, true⟩ := by
  have h := sconn_closed_terminal ⟨SStatus.CLOSED, 7, true, true⟩ rfl 42
  exact ⟨h.1, h.2.1, h.2.2.1⟩

/-- Helper: an offer always leaves a top element, so the run-loop invariant is
preserved. -/
theorem ConnectionStack.offer_WF {α : Type} (s : ConnectionStack α) (c : α) :
    (s.offer c).WF := by
  unfold ConnectionStack.offer ConnectionStack.WF
  cases s.top <;> intro h <;> cases h

/-- Helper: a stored offer pushes the connection on the abstract LIFO view. -/
theorem ConnectionStack.offer_toList {α : Type} (s : ConnectionStack α)
    (hwf : s.WF) (c : α) : (s.offer c).toList = c :: s.toList := by
  unfold ConnectionStack.offer ConnectionStack.toList
  cases htop : s.top with
  | none => rw [hwf htop]; rfl
  | some t => simp

/-- Helper: receiving from a non-empty stack pops the head of the abstract LIFO
view and preserves the run-loop invariant. -/
theorem ConnectionStack.take?_of_toList_cons {α : Type} (s : ConnectionStack α)
    (hwf : s.WF) (c : α) (rest : List α) (h : s.toList = c :: rest) :
    ∃ s', s.take? = some (c, s') ∧ s'.WF ∧ s'.toList = rest := by
  unfold ConnectionStack.toList at h
  cases htop : s.top with
  | none => rw [htop] at h; cases h
  | some t =>
    rw [htop] at h
    have hc : t = c := (List.cons.injEq _ _ _ _ ▸ h).1
    have hrest : s.connections.reverse = rest := (List.cons.injEq _ _ _ _ ▸ h).2
    rcases List.eq_nil_or_concat s.connections with hnil | ⟨L, b, hcat⟩
    · refine ⟨{ connections := s.connections, top := none }, ?_, ?_, ?_⟩
      · unfold ConnectionStack.take?
        rw [htop, hnil]
        simp [hc]
      · intro _; exact hnil
      · unfold ConnectionStack.toList
        simp only
        rw [← hrest, hnil]
        rfl
    · refine ⟨{ connections := s.connections.dropLast, top := some b }, ?_, ?_, ?_⟩
      · unfold ConnectionStack.take?
        rw [htop, hcat]
        simp [List.getLast?_concat, hc]
      · intro hcontra; cases hcontra
      · unfold ConnectionStack.toList
        simp only
        rw [← hrest, hcat]
        simp [List.dropLast_concat]

/-- Helper: receiving immediately after a stored offer returns the offered
connection and restores the previous stack state. -/
theorem ConnectionStack.take?_offer {α : Type} (s : ConnectionStack α)
    (hwf : s.WF) (c : α) : (s.offer c).take? = some (c, s) := by
  unfold ConnectionStack.offer ConnectionStack.take?
  cases htop : s.top with
  | none =>
    have hnil := hwf htop
    cases s with
    | mk connections top =>
      simp only at htop hnil
      subst htop hnil
      rfl
  | some t =>
    cases s with
    | mk connections top =>
      simp only at htop
      subst htop
      simp [List.getLast?_concat, List.dropLast_concat]

/-- Helper: draining as many elements as the abstract LIFO view holds returns
exactly that view, in order. -/
theorem ConnectionStack.takeAll_toList {α : Type} :
    ∀ (n : Nat) (s : ConnectionStack α), s.WF → s.toList.length = n →
      ConnectionStack.takeAll n s = s.toList := by
  intro n
  induction n with
  | zero =>
    intro s _ hlen
    rw [List.length_eq_zero.mp hlen]
    rfl
  | succ m ih =>
    intro s hwf hlen
    cases hl : s.toList with
    | nil => rw [hl] at hlen; cases hlen
    | cons c rest =>
      rcases ConnectionStack.take?_of_toList_cons s hwf c rest hl with
        ⟨s', htake, hwf', htl'⟩
      unfold ConnectionStack.takeAll
      rw [htake]
      show c :: ConnectionStack.takeAll m s' = c :: rest
      rw [ih s' hwf' (by rw [htl']; rw [hl] at hlen; simp at hlen; omega), htl']

/-- Helper: storing a sequence of offers prepends it, reversed, to the abstract
LIFO view. -/
theorem ConnectionStack.offerAll_toList {α : Type} :
    ∀ (cs : List α) (s : ConnectionStack α), s.WF →
      (s.offerAll cs).toList = cs.reverse ++ s.toList ∧ (s.offerAll cs).WF := by
  intro cs
  induction cs with
  | nil => intro s hwf; exact ⟨by simp [ConnectionStack.offerAll], hwf⟩
  | cons c cs ih =>
    intro s hwf
    have hstep : s.offerAll (c :: cs) = (s.offer c).offerAll cs := rfl
    rcases ih (s.offer c) (ConnectionStack.offer_WF s c) with ⟨htl, hwf'⟩
    refine ⟨?_, hstep ▸ hwf'⟩
    rw [hstep, htl, ConnectionStack.offer_toList s hwf c]
    simp

/-- Claim C5: while no acquirer is waiting, a stored offer followed by the next
receive from the out endpoint returns the most recently offered connection and
restores the stack; and a sequence of stored offers into an empty stack is
served in strictly last-in-first-out order. -/
theorem stack_lifo_spec {α : Type} (s : ConnectionStack α) (hwf : s.WF) (c : α)
    (cs : List α) :
    (s.offer c).take? = some (c, s) ∧
    ConnectionStack.takeAll cs.length
      ((ConnectionStack.empty : ConnectionStack α).offerAll cs) = cs.reverse := by
  refine ⟨ConnectionStack.take?_offer s hwf c, ?_⟩
  have hewf : (ConnectionStack.empty : ConnectionStack α).WF := fun _ => rfl
  rcases ConnectionStack.offerAll_toList cs (ConnectionStack.empty : ConnectionStack α)
    hewf with ⟨htl, hwf'⟩
  have hlen : ((ConnectionStack.empty : ConnectionStack α).offerAll cs).toList.length
      = cs.length := by
    rw [htl]
    simp [ConnectionStack.empty, ConnectionStack.toList]
  rw [ConnectionStack.takeAll_toList cs.length _ hwf' hlen, htl]
  simp [ConnectionStack.empty, ConnectionStack.toList]

/-- Witness for stack_lifo_spec on a concrete stack and offer sequence. -/
theorem stack_lifo_spec_witness :
    (({ connections := [1], top := some 2 } : ConnectionStack Nat).offer 3).take?
        = some (3, { connections := [1], top := some 2 }) ∧
    ConnectionStack.takeAll 3
      ((ConnectionStack.empty : ConnectionStack Nat).offerAll [10, 20, 30])
        = [30, 20, 10] := by
  have h := stack_lifo_spec ({ connections := [1], top := some 2 } : ConnectionStack Nat)
    (fun hcontra => Option.noConfusion hcontra) 3 [10, 20, 30]
  exact ⟨h.1, h.2⟩

/-- Helper: cleaning a cons counts the head when it is not CLOSED. -/
theorem countNonClosed_cons (c : CStatus) (cs : List CStatus) :
    countNonClosed (c :: cs)
      = (if c = CStatus.CLOSED then 0 else 1) + countNonClosed cs := by
  unfold countNonClosed cleanPool
  simp only [List.filter_cons]
  by_cases hc : c = CStatus.CLOSED
  · simp [hc]
  · have : (c != CStatus.CLOSED) = true := by simp [hc]
    rw [this]
    simp [hc]
    omega

/-- Helper: a status change whose source is not CLOSED never increases the
number of non-CLOSED connections. -/
theorem countNonClosed_set_le (conns : List CStatus) (i : Nat) (s : CStatus)
    (h : conns.get? i ≠ some CStatus.CLOSED) :
    countNonClosed (conns.set i s) ≤ countNonClosed conns := by
  induction conns generalizing i with
  | nil => simp [List.set]
  | cons c cs ih =>
    cases i with
    | zero =>
      have hc : c ≠ CStatus.CLOSED := by
        intro hcc
        exact h (by simp [List.get?, hcc])
      show countNonClosed (s :: cs) ≤ countNonClosed (c :: cs)
      rw [countNonClosed_cons, countNonClosed_cons]
      by_cases hs : s = CStatus.CLOSED <;> simp [hs, hc]
    | succ j =>
      have hj : cs.get? j ≠ some CStatus.CLOSED := by
        intro hcc
        exact h (by simpa [List.get?] using hcc)
      show countNonClosed (c :: cs.set j s) ≤ countNonClosed (c :: cs)
      rw [countNonClosed_cons, countNonClosed_cons]
      exact Nat.add_le_add_left (ih j hj) _

/-- Helper: cleaning is idempotent. -/
theorem cleanPool_cleanPool (l : List CStatus) :
    cleanPool (cleanPool l) = cleanPool l := by
  unfold cleanPool
  rw [List.filter_filter]
  simp

/-- Helper: freshly created CONNECTING connections are not CLOSED. -/
theorem cleanPool_replicate_connecting (k : Nat) :
    cleanPool (List.replicate k CStatus.CONNECTING)
      = List.replicate k CStatus.CONNECTING := by
  induction k with
  | zero => rfl
  | succ n ih =>
    rw [List.replicate_succ]
    unfold cleanPool at ih ⊢
    rw [List.filter_cons]
    simp only [ih]
    rfl

/-- Helper: the non-CLOSED count after one replenisher wake is the old count
plus the number of connections created. -/
theorem countNonClosed_clean_append (l : List CStatus) (k : Nat) :
    countNonClosed (cleanPool l ++ List.replicate k CStatus.CONNECTING)
      = countNonClosed l + k := by
  unfold countNonClosed
  have hsplit : cleanPool (cleanPool l ++ List.replicate k CStatus.CONNECTING)
      = cleanPool (cleanPool l) ++ cleanPool (List.replicate k CStatus.CONNECTING) := by
    unfold cleanPool
    rw [List.filter_append]
  rw [hsplit, cleanPool_cleanPool, cleanPool_replicate_connecting]
  simp

/-- Helper: the replenisher arithmetic never pushes the total above
PoolMaxSize when the total was within the cap before the wake. -/
theorem claimToCreate_bound (iSz mSz : Int) (idle running connecting T : Nat)
    (hT : (T : Int) ≤ mSz) :
    (T : Int) + ((claimToCreate iSz mSz idle running connecting T).toNat : Int)
      ≤ mSz := by
  simp only [claimToCreate]
  split_ifs <;> omega

/-- Claim C6 restated on the embedding: one connector wake appends exactly
claimToCreate-many CONNECTING connections to the cleaned member sequence. -/
theorem connector_eq_claim (iSz mSz : Int) (conns : List CStatus) :
    connector iSz mSz conns
      = cleanPool conns ++
        List.replicate
          (claimToCreate iSz mSz
            (poolSizeOf (cleanPool conns)).idle
            (poolSizeOf (cleanPool conns)).running
            (poolSizeOf (cleanPool conns)).connecting
            (poolSizeOf (cleanPool conns)).total).toNat
          CStatus.CONNECTING := rfl

/-- Helper: one replenisher wake preserves the PoolMaxSize capacity bound. -/
theorem countNonClosed_connector_le (iSz mSz : Int) (conns : List CStatus)
    (h : (countNonClosed conns : Int) ≤ mSz) :
    (countNonClosed (connector iSz mSz conns) : Int) ≤ mSz := by
  rw [connector_eq_claim, countNonClosed_clean_append]
  have htot : (poolSizeOf (cleanPool conns)).total = countNonClosed conns := rfl
  rw [htot]
  push_cast
  exact claimToCreate_bound iSz mSz _ _ _ _ h

/-- Claim C4: along every execution of the internal-side pool (replenisher
wakes interleaved with member status changes), if the number of non-CLOSED
connections is within PoolMaxSize it stays within PoolMaxSize; in particular it
never exceeds PoolMaxSize starting from the empty pool. -/
theorem client_pool_capacity (iSz mSz : Int) (conns conns' : List CStatus)
    (hsteps : Relation.ReflTransGen (PoolStep iSz mSz) conns conns')
    (hinit : (countNonClosed conns : Int) ≤ mSz) :
    (countNonClosed conns' : Int) ≤ mSz := by
  induction hsteps with
  | refl => exact hinit
  | tail _ hstep ih =>
    cases hstep with
    | connectorWake => exact countNonClosed_connector_le iSz mSz _ ih
    | statusChange i s hsrc =>
      have hle := countNonClosed_set_le _ i s hsrc
      omega

/-- Witness for client_pool_capacity : two replenisher wakes and a status
change from a singleton pool with PoolMaxSize = 2. -/
theorem client_pool_capacity_witness :
    (countNonClosed
      (connector 5 2 ((connector 5 2 [CStatus.IDLE]).set 1 CStatus.CLOSED)) : Int)
      ≤ 2 := by
  have h1 : PoolStep 5 2 [CStatus.IDLE] (connector 5 2 [CStatus.IDLE]) :=
    PoolStep.connectorWake [CStatus.IDLE]
  have h2 : PoolStep 5 2 (connector 5 2 [CStatus.IDLE])
      ((connector 5 2 [CStatus.IDLE]).set 1 CStatus.CLOSED) :=
    PoolStep.statusChange (connector 5 2 [CStatus.IDLE]) 1 CStatus.CLOSED (by decide)
  have h3 : PoolStep 5 2 ((connector 5 2 [CStatus.IDLE]).set 1 CStatus.CLOSED)
      (connector 5 2 ((connector 5 2 [CStatus.IDLE]).set 1 CStatus.CLOSED)) :=
    PoolStep.connectorWake _
  exact client_pool_capacity 5 2 _ _
    (Relation.ReflTransGen.tail
      (Relation.ReflTransGen.tail (Relation.ReflTransGen.single h1) h2) h3)
    (by decide)

/-- Claim C6: on each wake the replenisher computes missing = PoolIdleSize −
idle, overrides missing = 1 when idle + running = 0, clamps missing to
PoolMaxSize − total when total + missing would exceed PoolMaxSize, and then
starts exactly toCreate = missing − connecting new connections - none when
toCreate ≤ 0 - in that order. -/
theorem connector_replenish_spec (iSz mSz : Int) (conns : List CStatus) :
    (connector iSz mSz conns
      = cleanPool conns ++
        List.replicate
          (claimToCreate iSz mSz
            (poolSizeOf (cleanPool conns)).idle
            (poolSizeOf (cleanPool conns)).running
            (poolSizeOf (cleanPool conns)).connecting
            (poolSizeOf (cleanPool conns)).total).toNat
          CStatus.CONNECTING) ∧
    (claimToCreate iSz mSz
        (poolSizeOf (cleanPool conns)).idle
        (poolSizeOf (cleanPool conns)).running
        (poolSizeOf (cleanPool conns)).connecting
        (poolSizeOf (cleanPool conns)).total ≤ 0 →
      connector iSz mSz conns = cleanPool conns) := by
  refine ⟨connector_eq_claim iSz mSz conns, fun hneg => ?_⟩
  rw [connector_eq_claim iSz mSz conns, Int.toNat_of_nonpos hneg]
  simp

/-- Witness for connector_replenish_spec : a pool with one idle and one closed
connection under PoolIdleSize = 10, and the no-creation case under
PoolIdleSize = 0. -/
theorem connector_replenish_spec_witness :
    connector 10 100 [CStatus.IDLE, CStatus.CLOSED, CStatus.RUNNING]
      = [CStatus.IDLE, CStatus.RUNNING] ++
        List.replicate 9 CStatus.CONNECTING ∧
    connector 0 100 [CStatus.IDLE] = [CStatus.IDLE] := by
  constructor
  · have h := (connector_replenish_spec 10 100
      [CStatus.IDLE, CStatus.CLOSED, CStatus.RUNNING]).1
    rw [h]
    rfl
  · exact (connector_replenish_spec 0 100 [CStatus.IDLE]).2 (by decide)

/-- Helper: IDLE count of a cons. -/
theorem idleCount_cons (c : GConn) (l : List GConn) :
    idleCount (c :: l)
      = (if c.status = SStatus.IDLE then 1 else 0) + idleCount l := by
  unfold idleCount
  rw [List.filter_cons]
  by_cases hc : c.status = SStatus.IDLE
  · simp [hc, Nat.add_comm]
  · simp [hc]

/-- Helper: the GC pass never changes the number of member connections. -/
theorem cleanLoop_length (poolSize idleTimeout now : Int) :
    ∀ (conns : List GConn) (idle : Nat),
      (cleanLoop poolSize idleTimeout now conns idle).length = conns.length := by
  intro conns
  induction conns with
  | nil => intro idle; rfl
  | cons c rest ih =>
    intro idle
    simp only [cleanLoop]
    split_ifs <;> simp [ih]

/-- Helper: per-element characterization of one GC loop pass, generalized over
the initial idle counter. -/
theorem cleanLoop_get? (poolSize idleTimeout now : Int) :
    ∀ (conns : List GConn) (idle0 i : Nat) (c : GConn),
      conns.get? i = some c →
      (cleanLoop poolSize idleTimeout now conns idle0).get? i
        = some (gcSpecTransform poolSize idleTimeout now c
            (idle0 + idleCount (conns.take (i + 1)))) := by
  intro conns
  induction conns with
  | nil => intro idle0 i c h; cases h
  | cons c0 rest ih =>
    intro idle0 i c h
    cases i with
    | zero =>
      have hc : some c0 = some c := h
      have hc' : c0 = c := Option.some.inj hc
      subst hc'
      have htake : (c0 :: rest).take 1 = [c0] := rfl
      rw [htake]
      simp only [cleanLoop]
      by_cases h1 : c0.status = SStatus.IDLE
      · rw [if_neg (fun hcon => hcon h1)]
        have hic : idleCount [c0] = 1 := by simp [idleCount, h1]
        by_cases h2 : ((idle0 : Int) + 1) ≤ poolSize
        · rw [if_pos h2]
          have htr : gcSpecTransform poolSize idleTimeout now c0 (idle0 + idleCount [c0])
              = c0 := by
            unfold gcSpecTransform
            rw [if_neg]
            intro hcon
            have hgt := hcon.2.1
            rw [hic] at hgt
            push_cast at hgt
            omega
          rw [htr]
          rfl
        · rw [if_neg h2]
          by_cases h3 : now - c0.idleSince > idleTimeout
          · rw [if_pos h3]
            have htr : gcSpecTransform poolSize idleTimeout now c0 (idle0 + idleCount [c0])
                = c0.close := by
              unfold gcSpecTransform
              rw [if_pos]
              refine ⟨h1, ?_, h3⟩
              rw [hic]
              push_cast
              omega
            rw [htr]
            rfl
          · rw [if_neg h3]
            have htr : gcSpecTransform poolSize idleTimeout now c0 (idle0 + idleCount [c0])
                = c0 := by
              unfold gcSpecTransform
              rw [if_neg]
              intro hcon
              exact h3 hcon.2.2
            rw [htr]
            rfl
      · rw [if_pos h1]
        have htr : gcSpecTransform poolSize idleTimeout now c0 (idle0 + idleCount [c0])
            = c0 := by
          unfold gcSpecTransform
          rw [if_neg]
          intro hcon
          exact h1 hcon.1
        rw [htr]
        rfl
    | succ j =>
      have hrest : rest.get? j = some c := h
      have htake : (c0 :: rest).take (j + 2) = c0 :: rest.take (j + 1) := rfl
      rw [htake, idleCount_cons]
      simp only [cleanLoop]
      by_cases h1 : c0.status = SStatus.IDLE
      · rw [if_neg (fun hcon => hcon h1), if_pos h1]
        have harith : idle0 + (1 + idleCount (rest.take (j + 1)))
            = (idle0 + 1) + idleCount (rest.take (j + 1)) := by omega
        rw [harith]
        have hih := ih (idle0 + 1) j c hrest
        by_cases h2 : ((idle0 : Int) + 1) ≤ poolSize
        · rw [if_pos h2]; exact hih
        · rw [if_neg h2]
          by_cases h3 : now - c0.idleSince > idleTimeout
          · rw [if_pos h3]; exact hih
          · rw [if_neg h3]; exact hih
      · rw [if_pos h1, if_neg h1]
        have hih := ih idle0 j c hrest
        simpa using hih

/-- Claim C7: on one pass of the public-side idle-timeout GC the member count
is unchanged; each connection at idle rank r (IDLE connections encountered so
far, itself included) is closed iff it is IDLE with r > PoolSize and
idleSince older than Config.IdleTimeout; the first PoolSize IDLE connections
are kept unconditionally; and connections not in IDLE state are never closed. -/
theorem gc_clean_spec (poolSize idleTimeout now : Int) (conns : List GConn) :
    (cleanGC poolSize idleTimeout now conns).length = conns.length ∧
    (∀ i c, conns.get? i = some c →
      (cleanGC poolSize idleTimeout now conns).get? i
        = some (gcSpecTransform poolSize idleTimeout now c
            (idleCount (conns.take (i + 1))))) ∧
    (∀ i c, conns.get? i = some c → c.status ≠ SStatus.IDLE →
      (cleanGC poolSize idleTimeout now conns).get? i = some c) ∧
    (∀ i c, conns.get? i = some c → c.status = SStatus.IDLE →
      ((idleCount (conns.take (i + 1))) : Int) ≤ poolSize →
      (cleanGC poolSize idleTimeout now conns).get? i = some c) := by
  have hmain : ∀ i c, conns.get? i = some c →
      (cleanGC poolSize idleTimeout now conns).get? i
        = some (gcSpecTransform poolSize idleTimeout now c
            (idleCount (conns.take (i + 1)))) := by
    intro i c h
    have hloop := cleanLoop_get? poolSize idleTimeout now conns 0 i c h
    simpa using hloop
  refine ⟨cleanLoop_length poolSize idleTimeout now conns 0, hmain, ?_, ?_⟩
  · intro i c h hs
    rw [hmain i c h]
    unfold gcSpecTransform
    rw [if_neg (fun hcon => hs hcon.1)]
  · intro i c h hs hr
    rw [hmain i c h]
    unfold gcSpecTransform
    rw [if_neg]
    intro hcon
    omega

/-- Witness for gc_clean_spec : with PoolSize = 1, IdleTimeout = 10 and
now = 100, the third connection (second IDLE, idle for 50) is closed while the
first IDLE, the BUSY one and a fresh surplus IDLE one are kept. -/
theorem gc_clean_spec_witness :
    (cleanGC 1 10 100
      [⟨SStatus.IDLE, 95⟩, ⟨SStatus.BUSY, 0⟩, ⟨SStatus.IDLE, 50⟩,
       ⟨SStatus.IDLE, 99⟩]).get? 2 = some ⟨SStatus.CLOSED, 50⟩ ∧
    (cleanGC 1 10 100
      [⟨SStatus.IDLE, 95⟩, ⟨SStatus.BUSY, 0⟩, ⟨SStatus.IDLE, 50⟩,
       ⟨SStatus.IDLE, 99⟩]).get? 1 = some ⟨SStatus.BUSY, 0⟩ := by
  have hspec := gc_clean_spec 1 10 100
    [⟨SStatus.IDLE, 95⟩, ⟨SStatus.BUSY, 0⟩, ⟨SStatus.IDLE, 50⟩, ⟨SStatus.IDLE, 99⟩]
  constructor
  · have h := hspec.2.1 2 ⟨SStatus.IDLE, 50⟩ (by rfl)
    rw [h]
    rfl
  · exact hspec.2.2.1 1 ⟨SStatus.BUSY, 0⟩ (by rfl) (by simp)

/-- Helper: the validator only ever produces its two fixed, non-empty error
messages. -/
theorem validate_error_nonempty (v : RequestValidator) (req : HTTPRequest)
    (m : String) (h : v.Validate req = Except.error m) : m ≠ "" := by
  unfold RequestValidator.Validate at h
  split_ifs at h <;> cases h <;> decide

/-- Claim C1: one proxied exchange consists of exactly four frames in strict
order - the public side writes a TEXT frame with the JSON wire request then a
BINARY frame with the body; the internal side, after reading both, writes a
TEXT frame with the JSON wire response then a BINARY frame with the response
body, which the public side reads back; and a frame that deviates from the
sequence by arriving while the public-side connection is not BUSY breaks its
read loop, closing the tunnel. -/
theorem four_frame_exchange (v : RequestValidator) (parseURL : String → Bool)
    (httpExec : HTTPRequest → Payload → Except String (HTTPResponse × String))
    (req : HTTPRequest) (body : String) (resp : HTTPResponse) (respBody : String)
    (hparse : parseURL req.URL = true)
    (hvalid : v.Validate req = Except.ok ())
    (hexec : httpExec req (Payload.bytes body) = Except.ok (resp, respBody)) :
    exchange v parseURL httpExec req body =
      (StepResult.continued
        [Event.readFrame { kind := FrameKind.text, payload := Payload.jsonRequest req },
         Event.readFrame { kind := FrameKind.binary, payload := Payload.bytes body },
         Event.writeFrame { kind := FrameKind.text, payload := Payload.jsonResponse resp },
         Event.writeFrame { kind := FrameKind.binary, payload := Payload.bytes respBody }]
        [],
       { events :=
          [Event.writeFrame { kind := FrameKind.text, payload := Payload.jsonRequest req },
           Event.writeFrame { kind := FrameKind.binary, payload := Payload.bytes body },
           Event.readFrame { kind := FrameKind.text, payload := Payload.jsonResponse resp },
           Event.readFrame { kind := FrameKind.binary, payload := Payload.bytes respBody }]
         response := some (resp, Payload.bytes respBody) }) ∧
    (writtenFrames (exchange v parseURL httpExec req body).2.events ++
       writtenFrames (exchange v parseURL httpExec req body).1.events).map Frame.kind
      = [FrameKind.text, FrameKind.binary, FrameKind.text, FrameKind.binary] ∧
    (∀ s, s ≠ SStatus.BUSY → readLoopFrameCloses s = true) ∧
    readLoopFrameCloses SStatus.BUSY = false := by
  have hclient : serveStep v parseURL httpExec
      [ { kind := FrameKind.text, payload := Payload.jsonRequest req },
        { kind := FrameKind.binary, payload := Payload.bytes body } ]
      = StepResult.continued
          [Event.readFrame { kind := FrameKind.text, payload := Payload.jsonRequest req },
           Event.readFrame { kind := FrameKind.binary, payload := Payload.bytes body },
           Event.writeFrame { kind := FrameKind.text, payload := Payload.jsonResponse resp },
           Event.writeFrame { kind := FrameKind.binary, payload := Payload.bytes respBody }]
          [] := by
    unfold serveStep
    simp [decodeRequest, hparse, hvalid, hexec]
  have hex : exchange v parseURL httpExec req body =
      (StepResult.continued
        [Event.readFrame { kind := FrameKind.text, payload := Payload.jsonRequest req },
         Event.readFrame { kind := FrameKind.binary, payload := Payload.bytes body },
         Event.writeFrame { kind := FrameKind.text, payload := Payload.jsonResponse resp },
         Event.writeFrame { kind := FrameKind.binary, payload := Payload.bytes respBody }]
        [],
       { events :=
          [Event.writeFrame { kind := FrameKind.text, payload := Payload.jsonRequest req },
           Event.writeFrame { kind := FrameKind.binary, payload := Payload.bytes body },
           Event.readFrame { kind := FrameKind.text, payload := Payload.jsonResponse resp },
           Event.readFrame { kind := FrameKind.binary, payload := Payload.bytes respBody }]
         response := some (resp, Payload.bytes respBody) }) := by
    simp only [exchange]
    rw [hclient]
    simp [StepResult.events, writtenFrames, proxyRequest, decodeResponse]
  refine ⟨hex, ?_, ?_, rfl⟩
  · rw [hex]
    rfl
  · intro s hs
    cases s with
    | IDLE => rfl
    | BUSY => exact absurd rfl hs
    | CLOSED => rfl

/-- Witness for four_frame_exchange : a concrete GET exchange through an empty
validator delivering a 200 response with body bytes. -/
theorem four_frame_exchange_witness :
    (writtenFrames
        (exchange { Blacklist := [], Whitelist := [] } (fun _ => true)
          (fun _ _ => Except.ok ({ StatusCode := 200, Header := [], ContentLength := 5 },
            "hello"))
          { Method := "GET", URL := "http://x", Header := [], ContentLength := 0 }
          "").2.events ++
      writtenFrames
        (exchange { Blacklist := [], Whitelist := [] } (fun _ => true)
          (fun _ _ => Except.ok ({ StatusCode := 200, Header := [], ContentLength := 5 },
            "hello"))
          { Method := "GET", URL := "http://x", Header := [], ContentLength := 0 }
          "").1.events).map Frame.kind
      = [FrameKind.text, FrameKind.binary, FrameKind.text, FrameKind.binary] := by
  exact (four_frame_exchange { Blacklist := [], Whitelist := [] } (fun _ => true)
    (fun _ _ => Except.ok ({ StatusCode := 200, Header := [], ContentLength := 5 },
      "hello"))
    { Method := "GET", URL := "http://x", Header := [], ContentLength := 0 } ""
    { StatusCode := 200, Header := [], ContentLength := 5 } "hello"
    rfl rfl rfl).2.1

/-- Claim C8: whenever the internal peer cannot execute a forwarded request -
wire-request deserialization failure, validator rejection, or local HTTP
transport error - it sends a TEXT frame whose wire response has status code 527
and ContentLength equal to the length of the error message, followed by a
BINARY frame whose bytes are exactly that non-empty error message. -/
theorem client_error_response_spec (v : RequestValidator)
    (parseURL : String → Bool)
    (httpExec : HTTPRequest → Payload → Except String (HTTPResponse × String)) :
    (∀ msg, connError msg =
      [ { kind := FrameKind.text
          payload := Payload.jsonResponse
            { StatusCode := 527, Header := [], ContentLength := (msg.length : Int) } },
        { kind := FrameKind.binary, payload := Payload.bytes msg } ]) ∧
    (∀ f1 rest1, decodeRequest f1.payload = none →
      serveStep v parseURL httpExec (f1 :: rest1)
        = StepResult.terminated
            (Event.readFrame f1 ::
              (connError "Unable to deserialize json http request : \n").map
                Event.writeFrame) ∧
      ("Unable to deserialize json http request : \n" : String) ≠ "") ∧
    (∀ f1 f2 rest2 req emsg, decodeRequest f1.payload = some req →
      parseURL req.URL = true → v.Validate req = Except.error emsg →
      f2.kind = FrameKind.binary →
      serveStep v parseURL httpExec (f1 :: f2 :: rest2)
        = StepResult.continued
            (Event.readFrame f1 :: Event.readFrame f2 ::
              (connError emsg).map Event.writeFrame) rest2 ∧
      emsg ≠ "") ∧
    (∀ f1 f2 rest2 req e, decodeRequest f1.payload = some req →
      parseURL req.URL = true → v.Validate req = Except.ok () →
      httpExec req f2.payload = Except.error e →
      serveStep v parseURL httpExec (f1 :: f2 :: rest2)
        = StepResult.continued
            (Event.readFrame f1 :: Event.readFrame f2 ::
              (connError ("Unable to execute request : " ++ e ++ "\n")).map
                Event.writeFrame) rest2 ∧
      ("Unable to execute request : " ++ e ++ "\n") ≠ "") := by
  refine ⟨fun msg => rfl, ?_, ?_, ?_⟩
  · intro f1 rest1 hdec
    refine ⟨?_, by decide⟩
    simp only [serveStep]
    rw [hdec]
  · intro f1 f2 rest2 req emsg hdec hparse hrej hkind
    refine ⟨?_, validate_error_nonempty v req emsg hrej⟩
    simp only [serveStep]
    rw [hdec]
    simp [hparse, hrej, hkind]
  · intro f1 f2 rest2 req e hdec hparse hok hexec
    refine ⟨?_, ?_⟩
    · simp only [serveStep]
      rw [hdec]
      simp [hparse, hok, hexec]
    · intro hcon
      have hlen := congrArg String.length hcon
      simp [String.length_append] at hlen
      exact absurd hlen.2 (by decide)

/-- Witness for client_error_response_spec : a junk first frame triggers the
deserialization 527, and a transport failure triggers the execute 527. -/
theorem client_error_response_spec_witness :
    serveStep { Blacklist := [], Whitelist := [] } (fun _ => true)
      (fun _ _ => Except.error "dial tcp: refused")
      [ { kind := FrameKind.text, payload := Payload.bytes "junk" } ]
      = StepResult.terminated
          (Event.readFrame { kind := FrameKind.text, payload := Payload.bytes "junk" } ::
            (connError "Unable to deserialize json http request : \n").map
              Event.writeFrame) ∧
    serveStep { Blacklist := [], Whitelist := [] } (fun _ => true)
      (fun _ _ => Except.error "dial tcp: refused")
      [ { kind := FrameKind.text
          payload := Payload.jsonRequest
            { Method := "GET", URL := "http://t", Header := [], ContentLength := 0 } },
        { kind := FrameKind.binary, payload := Payload.bytes "" } ]
      = StepResult.continued
          (Event.readFrame
            { kind := FrameKind.text
              payload := Payload.jsonRequest
                { Method := "GET", URL := "http://t", Header := [], ContentLength := 0 } } ::
           Event.readFrame { kind := FrameKind.binary, payload := Payload.bytes "" } ::
            (connError ("Unable to execute request : " ++ "dial tcp: refused" ++ "\n")).map
              Event.writeFrame) [] := by
  have h := client_error_response_spec { Blacklist := [], Whitelist := [] }
    (fun _ => true) (fun _ _ => Except.error "dial tcp: refused")
  constructor
  · exact (h.2.1 { kind := FrameKind.text, payload := Payload.bytes "junk" } [] rfl).1
  · exact (h.2.2.2
      { kind := FrameKind.text
        payload := Payload.jsonRequest
          { Method := "GET", URL := "http://t", Header := [], ContentLength := 0 } }
      { kind := FrameKind.binary, payload := Payload.bytes "" } []
      { Method := "GET", URL := "http://t", Header := [], ContentLength := 0 }
      "dial tcp: refused" rfl rfl rfl rfl).1

/-- Claim C10: when the internal-side validator rejects a forwarded request,
the serve loop reads and discards the next incoming frame before writing
anything; if that frame is BINARY, the synthesized 527 for the rejection is
sent only afterwards and the loop continues on the remaining frames (alignment
preserved); if it is not BINARY, the loop breaks - terminating the connection -
without sending the rejection's 527 (the discard-failure 527 is sent instead). -/
theorem reject_discards_before_error (v : RequestValidator)
    (parseURL : String → Bool)
    (httpExec : HTTPRequest → Payload → Except String (HTTPResponse × String))
    (f1 f2 : Frame) (rest2 : List Frame) (req : HTTPRequest) (emsg : String)
    (hdec : decodeRequest f1.payload = some req)
    (hparse : parseURL req.URL = true)
    (hrej : v.Validate req = Except.error emsg) :
    ((serveStep v parseURL httpExec (f1 :: f2 :: rest2)).events.take 2
      = [Event.readFrame f1, Event.readFrame f2]) ∧
    (f2.kind = FrameKind.binary →
      serveStep v parseURL httpExec (f1 :: f2 :: rest2)
        = StepResult.continued
            (Event.readFrame f1 :: Event.readFrame f2 ::
              (connError emsg).map Event.writeFrame) rest2) ∧
    (f2.kind ≠ FrameKind.binary →
      serveStep v parseURL httpExec (f1 :: f2 :: rest2)
        = StepResult.terminated
            (Event.readFrame f1 :: Event.readFrame f2 ::
              (connError "Invalid body message type").map Event.writeFrame)) := by
  have hbin : f2.kind = FrameKind.binary →
      serveStep v parseURL httpExec (f1 :: f2 :: rest2)
        = StepResult.continued
            (Event.readFrame f1 :: Event.readFrame f2 ::
              (connError emsg).map Event.writeFrame) rest2 := by
    intro hkind
    simp only [serveStep]
    rw [hdec]
    simp [hparse, hrej, hkind]
  have hnotbin : f2.kind ≠ FrameKind.binary →
      serveStep v parseURL httpExec (f1 :: f2 :: rest2)
        = StepResult.terminated
            (Event.readFrame f1 :: Event.readFrame f2 ::
              (connError "Invalid body message type").map Event.writeFrame) := by
    intro hkind
    simp only [serveStep]
    rw [hdec]
    simp [hparse, hrej, hkind]
  refine ⟨?_, hbin, hnotbin⟩
  by_cases hkind : f2.kind = FrameKind.binary
  · rw [hbin hkind]; rfl
  · rw [hnotbin hkind]; rfl

/-- Witness for reject_discards_before_error : a whitelist that matches nothing
rejects a request; with a BINARY body frame the loop discards it and sends the
rejection 527, with a TEXT body frame it terminates. -/
theorem reject_discards_before_error_witness :
    serveStep
      { Blacklist := []
        Whitelist := [ { methodRegex := some (fun _ => false), urlRegex := none
                         headersRegex := [] } ] }
      (fun _ => true) (fun _ _ => Except.error "unused")
      [ { kind := FrameKind.text
          payload := Payload.jsonRequest
            { Method := "GET", URL := "u", Header := [], ContentLength := 0 } },
        { kind := FrameKind.binary, payload := Payload.bytes "b" } ]
      = StepResult.continued
          (Event.readFrame
            { kind := FrameKind.text
              payload := Payload.jsonRequest
                { Method := "GET", URL := "u", Header := [], ContentLength := 0 } } ::
           Event.readFrame { kind := FrameKind.binary, payload := Payload.bytes "b" } ::
            (connError "Destination is not allowed").map Event.writeFrame) [] := by
  exact (reject_discards_before_error
    { Blacklist := []
      Whitelist := [ { methodRegex := some (fun _ => false), urlRegex := none
                       headersRegex := [] } ] }
    (fun _ => true) (fun _ _ => Except.error "unused")
    { kind := FrameKind.text
      payload := Payload.jsonRequest
        { Method := "GET", URL := "u", Header := [], ContentLength := 0 } }
    { kind := FrameKind.binary, payload := Payload.bytes "b" } []
    { Method := "GET", URL := "u", Header := [], ContentLength := 0 }
    "Destination is not allowed" rfl rfl rfl).2.1 rfl
